import Mathlib

/-!
Verification development for the `uvtools.dspec` filtering module.

The Python source is shallowly embedded over exact rationals:
* machine floats become `ℚ`;
* Python 3's `round` (round-half-to-even) becomes `pyround`;
* numpy arrays of rank 1..3 become the `Tensor` type, with numpy's
  broadcasting rules for elementwise arithmetic made explicit and
  numpy/Python exceptions surfacing as `Except PyErr`;
* the external collaborators (`np.fft.ifft`/`fft`, `aipy.dsp.gen_window`,
  `aipy.deconv.clean`) are opaque parameters collected in `Externals`,
  since their code is not part of this repository.
-/

/-- Python 3 `round` for a rational: round half to even (banker's rounding).
`int(round(x))` in the source truncates an already integral value, so it is
the identity on top of this. -/
def pyround (q : ℚ) : ℤ :=
  let f : ℤ := ⌊q⌋
  if q - f < 1/2 then f
  else if 1/2 < q - f then f + 1
  else if f % 2 = 0 then f else f + 1

/-- Embeds `calc_width` (src/uvtools/dspec.py lines 24-43):
`bin_width = 1./(real_delta*nsamples)`, `w = int(round(filter_size/bin_width))`,
`uthresh, lthresh = w+1, -w`, and `lthresh` is replaced by `nsamples` when it
computes to exactly 0. -/
def calc_width (filter_size real_delta : ℚ) (nsamples : ℕ) : ℤ × ℤ :=
  let bin_width : ℚ := 1 / (real_delta * nsamples)
  let w : ℤ := pyround (filter_size / bin_width)
  let uthresh : ℤ := w + 1
  let lthresh : ℤ := -w
  let lthresh : ℤ := if lthresh = 0 then (nsamples : ℤ) else lthresh
  (uthresh, lthresh)

/-- Embeds `wedge_width` (src/uvtools/dspec.py lines 4-21). -/
def wedge_width (bl_len sdf : ℚ) (nchan : ℕ) (standoff horizon : ℚ) : ℤ × ℤ :=
  let bl_dly := horizon * bl_len + standoff
  calc_width bl_dly sdf nchan

/-! ## numpy arrays, broadcasting and Python exceptions -/

/-- The Python exceptions the embedded code can raise. -/
inductive PyErr where
  | valueError : String → PyErr
  | indexError : String → PyErr
  | typeError : String → PyErr
deriving DecidableEq

/-- A numpy array of rank 1, 2 or 3 over exact rationals (complex-valued data
is covered by the claims' real-valued instances; the transforms are opaque
parameters either way). -/
inductive Tensor where
  | vec : List ℚ → Tensor
  | mat : List (List ℚ) → Tensor
  | cube : List (List (List ℚ)) → Tensor
deriving DecidableEq

/-- The unequal-length case of one-axis broadcasting: a length-1 operand is
stretched, anything else raises numpy's broadcast `ValueError`. -/
def bc0Stretch (op : ℚ → ℚ → ℚ) : List ℚ → List ℚ → Except PyErr (List ℚ)
  | [x], b => .ok (b.map (fun y => op x y))
  | a, [y] => .ok (a.map (fun x => op x y))
  | _, _ => .error (.valueError "operands could not be broadcast together")

/-- numpy broadcasting of an elementwise operation along one axis: equal
lengths act pointwise, a length-1 operand is stretched, anything else raises
numpy's broadcast `ValueError`. -/
def bc0 (op : ℚ → ℚ → ℚ) (a b : List ℚ) : Except PyErr (List ℚ) :=
  if a.length = b.length then .ok (List.zipWith op a b)
  else bc0Stretch op a b

/-- Fallible `zipWith` (equal-length case of broadcasting one level up). -/
def zipWithE {α β : Type} (f : α → α → Except PyErr β) :
    List α → List α → Except PyErr (List β)
  | [], _ => .ok []
  | _, [] => .ok []
  | x :: xs, y :: ys => do
      let z ← f x y
      let zs ← zipWithE f xs ys
      .ok (z :: zs)

/-- Fallible `map`. -/
def mapE {α β : Type} (f : α → Except PyErr β) : List α → Except PyErr (List β)
  | [] => .ok []
  | x :: xs => do
      let y ← f x
      let ys ← mapE f xs
      .ok (y :: ys)

/-- The unequal-length case of broadcasting one axis level up. -/
def bcLStretch {α : Type} (f : α → α → Except PyErr α) :
    List α → List α → Except PyErr (List α)
  | [x], b => mapE (fun y => f x y) b
  | a, [y] => mapE (fun x => f x y) a
  | _, _ => .error (.valueError "operands could not be broadcast together")

/-- numpy broadcasting one axis level up, given the broadcast of the inner
levels. -/
def bcL {α : Type} (f : α → α → Except PyErr α) (a b : List α) :
    Except PyErr (List α) :=
  if a.length = b.length then zipWithE f a b
  else bcLStretch f a b

/-- numpy elementwise binary operation on rank-1..3 arrays with broadcasting;
a lower-rank operand is padded with leading length-1 axes, as numpy does. -/
def tensorOp (op : ℚ → ℚ → ℚ) : Tensor → Tensor → Except PyErr Tensor
  | .vec a, .vec b => do
      let r ← bc0 op a b
      .ok (.vec r)
  | .vec a, .mat B => do
      let r ← mapE (fun row => bc0 op a row) B
      .ok (.mat r)
  | .mat A, .vec b => do
      let r ← mapE (fun row => bc0 op row b) A
      .ok (.mat r)
  | .mat A, .mat B => do
      let r ← bcL (bc0 op) A B
      .ok (.mat r)
  | .vec a, .cube C => do
      let r ← mapE (fun plane => mapE (fun row => bc0 op a row) plane) C
      .ok (.cube r)
  | .cube C, .vec b => do
      let r ← mapE (fun plane => mapE (fun row => bc0 op row b) plane) C
      .ok (.cube r)
  | .mat A, .cube C => do
      let r ← mapE (fun plane => bcL (bc0 op) A plane) C
      .ok (.cube r)
  | .cube C, .mat B => do
      let r ← mapE (fun plane => bcL (bc0 op) plane B) C
      .ok (.cube r)
  | .cube A, .cube B => do
      let r ← bcL (bcL (bc0 op)) A B
      .ok (.cube r)

/-- `data * wgts` etc. -/
def tmul : Tensor → Tensor → Except PyErr Tensor := tensorOp (· * ·)

/-- `data - d_mdl`. -/
def tsub : Tensor → Tensor → Except PyErr Tensor := tensorOp (· - ·)

/-- Apply a 1D transform along the last axis (`axis=-1`), as `np.fft.ifft`
and `np.fft.fft` are used in the source. -/
def mapLast (f : List ℚ → List ℚ) : Tensor → Tensor
  | .vec a => .vec (f a)
  | .mat A => .mat (A.map f)
  | .cube C => .cube (C.map (fun plane => plane.map f))

/-- `data.shape[-1]` of a (shape-uniform) array. -/
def lastDim : Tensor → ℕ
  | .vec a => a.length
  | .mat A => (A.headD []).length
  | .cube C => ((C.headD []).headD []).length

/-- `area = np.ones(nchan); area[uthresh:lthresh] = 0` with Python slice
semantics (negative indices count from the end, bounds are clamped). -/
def mkArea (n : ℕ) (u l : ℤ) : List ℤ :=
  let u' : ℕ := if u < 0 then (n + u).toNat else min u.toNat n
  let l' : ℕ := if l < 0 then (n + l).toNat else min l.toNat n
  (List.range n).map (fun i => if u' ≤ i ∧ i < l' then 0 else 1)

/-! ## the filter -/

/-- The external collaborators of `high_pass_fourier_filter`, which are not
code of this repository: `aipy.dsp.gen_window` (keyed by the window name and
opaque keyword arguments of type `κ`), `np.fft.ifft`/`np.fft.fft` on one row,
and `aipy.deconv.clean` taking `(_d, _w, area, tol, maxiter, gain)` and
returning the reciprocal-space model together with its metadata dictionary of
opaque type `ι`; `delRes` is the deletion of the res entry from the dictionary. -/
structure Externals (ι κ : Type) where
  genWindow : ℕ → String → κ → List ℚ
  ifft : List ℚ → List ℚ
  fft : List ℚ → List ℚ
  clean : List ℚ → List ℚ → List ℤ → ℚ → ℕ → ℚ → List ℚ × ι
  delRes : ι → ι

/-- Per-row metadata of the 2D path: the skip marker or the (res-deleted)
CLEAN metadata. -/
inductive FilterInfo (ι : Type) where
  | skipped : FilterInfo ι
  | cleanInfo : ι → FilterInfo ι
deriving DecidableEq

/-- The `info` return value: a single dictionary (1D) or one entry per row
(2D). -/
inductive InfoOut (ι : Type) where
  | single : ι → InfoOut ι
  | rows : List (FilterInfo ι) → InfoOut ι
deriving DecidableEq

/-- The 2D loop of `high_pass_fourier_filter` (src/uvtools/dspec.py lines
87-97) over the row indices `range(data.shape[0])`: row `i` is skipped (model
row of zeros, skip marker) when `_w[i,0] < skip_wgt`, and otherwise
cleaned; out-of-range indexing raises `IndexError` as in numpy. -/
def cleanRows {ι κ : Type} (E : Externals ι κ) (dR wR : List (List ℚ))
    (area : List ℤ) (tol skip_wgt gain : ℚ) (maxiter nchan : ℕ) :
    List ℕ → Except PyErr (List (List ℚ) × List (FilterInfo ι))
  | [] => .ok ([], [])
  | i :: rest =>
      if i < wR.length then
        if 0 < (wR.getD i []).length then
          if (wR.getD i []).getD 0 0 < skip_wgt then
            Except.map
              (fun tl => (List.replicate nchan 0 :: tl.1, .skipped :: tl.2))
              (cleanRows E dR wR area tol skip_wgt gain maxiter nchan rest)
          else
            if i < dR.length then
              Except.map
                (fun tl =>
                  (E.fft (E.clean (dR.getD i []) (wR.getD i []) area tol
                      maxiter gain).1 :: tl.1,
                   .cleanInfo (E.delRes (E.clean (dR.getD i []) (wR.getD i [])
                      area tol maxiter gain).2) :: tl.2))
                (cleanRows E dR wR area tol skip_wgt gain maxiter nchan rest)
            else .error (.indexError "index out of bounds")
        else .error (.indexError "index out of bounds")
      else .error (.indexError "index out of bounds")

/-- Lines 75-99 of src/uvtools/dspec.py: window generation, weighting,
inverse transforms, `calc_width`/`area`, and the rank dispatch producing
`(d_mdl, info)`. Mixed-rank combinations that hand `aipy.deconv.clean`
arrays of different ranks (possible only when `wgts` broadcasts to a rank
other than `data`'s) are outside the model and are marked by an error. -/
def hpffCore {ι κ : Type} (E : Externals ι κ) (data wgts : Tensor)
    (filter_size real_delta tol : ℚ) (window : String) (skip_wgt : ℚ)
    (maxiter : ℕ) (gain : ℚ) (winKw : κ) :
    Except PyErr (Tensor × InfoOut ι) := do
  let nchan := lastDim data
  let win := Tensor.vec (E.genWindow nchan window winKw)
  let dw ← tmul data wgts
  let dww ← tmul dw win
  let td := mapLast E.ifft dww
  let ww ← tmul wgts win
  let tw := mapLast E.ifft ww
  let ul := calc_width filter_size real_delta nchan
  let area := mkArea nchan ul.1 ul.2
  match data, td, tw with
  | .vec _, .vec d1, .vec w1 =>
      let ci := E.clean d1 w1 area tol maxiter gain
      .ok (.vec (E.fft ci.1), .single (E.delRes ci.2))
  | .vec _, _, _ =>
      .error (.typeError "aipy clean on mixed-rank input is outside this model")
  | .mat D, .mat dR, .mat wR => do
      let mi ← cleanRows E dR wR area tol skip_wgt gain maxiter nchan
        (List.range D.length)
      .ok (.mat mi.1, .rows mi.2)
  | .mat D, _, _ =>
      if D.length = 0 then .ok (.mat [], .rows [])
      else .error (.indexError "too many indices for array")
  | .cube _, _, _ => .error (.valueError "data must be a 1D or 2D array")

/-- Embeds `high_pass_fourier_filter` (src/uvtools/dspec.py lines 46-102):
the core above followed by `d_res = data - d_mdl`. -/
def high_pass_fourier_filter {ι κ : Type} (E : Externals ι κ)
    (data wgts : Tensor) (filter_size real_delta tol : ℚ) (window : String)
    (skip_wgt : ℚ) (maxiter : ℕ) (gain : ℚ) (winKw : κ) :
    Except PyErr (Tensor × Tensor × InfoOut ι) := do
  let mi ← hpffCore E data wgts filter_size real_delta tol window skip_wgt
    maxiter gain winKw
  let d_res ← tsub data mi.1
  .ok (mi.1, d_res, mi.2)

/-- Embeds `delay_filter` (src/uvtools/dspec.py lines 105-145):
`bl_dly = horizon*bl_len + standoff`, raised to `min_dly` via
`np.max([bl_dly, min_dly])`, then forwarded. -/
def delay_filter {ι κ : Type} (E : Externals ι κ) (data wgts : Tensor)
    (bl_len sdf standoff horizon min_dly tol : ℚ) (window : String)
    (skip_wgt : ℚ) (maxiter : ℕ) (gain : ℚ) (winKw : κ) :
    Except PyErr (Tensor × Tensor × InfoOut ι) :=
  let bl_dly := horizon * bl_len + standoff
  let bl_dly := max bl_dly min_dly
  high_pass_fourier_filter E data wgts bl_dly sdf tol window skip_wgt
    maxiter gain winKw

/-! ## semantic helpers -/

/-- What the 2D path of `high_pass_fourier_filter` does to one row, written
directly on the raw data/weight rows: weight and window the row, transform,
then either skip (when the first reciprocal weight bin is below `skip_wgt`)
or CLEAN. -/
def rowFilter {ι κ : Type} (E : Externals ι κ) (winL : List ℚ) (area : List ℤ)
    (tol skip_wgt gain : ℚ) (maxiter nchan : ℕ) (dRow wRow : List ℚ) :
    List ℚ × FilterInfo ι :=
  let tw := E.ifft (List.zipWith (· * ·) wRow winL)
  if tw.getD 0 0 < skip_wgt then (List.replicate nchan 0, .skipped)
  else
    let td := E.ifft (List.zipWith (· * ·) (List.zipWith (· * ·) dRow wRow) winL)
    let ci := E.clean td tw area tol maxiter gain
    (E.fft ci.1, .cleanInfo (E.delRes ci.2))

/-- Two tensors have the same numpy shape. -/
def sameShape : Tensor → Tensor → Bool
  | .vec a, .vec b => a.length == b.length
  | .mat A, .mat B =>
      A.length == B.length &&
        (A.zip B).all (fun p => p.1.length == p.2.length)
  | .cube A, .cube B =>
      A.length == B.length &&
        (A.zip B).all (fun p =>
          p.1.length == p.2.length &&
            (p.1.zip p.2).all (fun q => q.1.length == q.2.length))
  | _, _ => false

/-- Elementwise difference of two same-shape tensors (junk on a shape
mismatch, where it is never used). -/
def elemSub : Tensor → Tensor → Tensor
  | .vec a, .vec b => .vec (List.zipWith (· - ·) a b)
  | .mat A, .mat B => .mat (List.zipWith (List.zipWith (· - ·)) A B)
  | .cube A, .cube B =>
      .cube (List.zipWith (List.zipWith (List.zipWith (· - ·))) A B)
  | t, _ => t

/-- A concrete instantiation of the external collaborators, used to evaluate
the embedding on closed inputs: the identity on length-1-compatible
transforms (faithful to the true transforms on length-1 rows and sufficient
for evaluating the control flow under test), an all-ones window, and a CLEAN that returns its
input spectrum. -/
def trivExt : Externals Unit Unit where
  genWindow := fun n _ _ => List.replicate n 1
  ifft := fun l => l
  fft := fun l => l
  clean := fun d _ _ _ _ _ => (d, ())
  delRes := fun i => i

/-- Modelled from the spec: `sinc_downweight_mat_inv` belongs to the
LinearSuppressionFilter component, which is absent from src/ (only the tests
call it); per the spec it builds
`I + Σ_regions factor⁻¹ · sinc((i−j)·sample_spacing·2·width)`, the sinc
kernel itself being an external numerical function, abstracted as `sincF`. -/
def sinc_downweight_mat_inv (sincF : ℚ → ℚ) (n : ℕ) (sample_spacing : ℚ)
    (filter_centers filter_widths filter_factors : List ℚ) :
    Matrix (Fin n) (Fin n) ℚ :=
  Matrix.of fun i j =>
    (if i = j then 1 else 0) +
      ((filter_widths.zip filter_factors).map
        (fun wf => (wf.2)⁻¹ *
          sincF (((i : ℤ) - (j : ℤ)) * sample_spacing * 2 * wf.1))).sum

/-! ## theorems -/

/-- Shared helper: with a positive `real_delta` and sample count, the division
by the bin width in `calc_width` is a multiplication by `real_delta * nsamples`. -/
lemma calc_width_eq (fs rd : ℚ) (n : ℕ) (hrd : 0 < rd) (hn : 0 < n) :
    calc_width fs rd n =
      (pyround (fs * rd * n) + 1,
       if pyround (fs * rd * n) = 0 then (n : ℤ) else -(pyround (fs * rd * n))) := by
  have hrn : (rd * (n : ℚ)) ≠ 0 := by
    have hnq : (0 : ℚ) < (n : ℚ) := by exact_mod_cast hn
    exact mul_ne_zero (ne_of_gt hrd) (ne_of_gt hnq)
  have hdiv : fs / (1 / (rd * (n : ℚ))) = fs * rd * n := by
    field_simp
    ring
  unfold calc_width
  simp only [hdiv, neg_eq_zero]

/-- Shared helper: `pyround` of a rational in `[0, 1/2]` is `0`. -/
lemma pyround_eq_zero (q : ℚ) (h0 : 0 ≤ q) (h1 : q ≤ 1/2) : pyround q = 0 := by
  have hf : ⌊q⌋ = 0 := by
    rw [Int.floor_eq_zero_iff]
    constructor
    · exact h0
    · exact lt_of_le_of_lt h1 (by norm_num)
  unfold pyround
  rw [hf]
  push_cast
  rcases lt_or_eq_of_le h1 with hlt | heq
  · rw [if_pos (by simpa using hlt)]
  · subst heq
    norm_num

/-- Claim C1: for `filter_size ≥ 0`, `real_delta > 0` and `nsamples > 0`,
`calc_width` returns `(w+1, -w)` with `w = round(filter_size·real_delta·nsamples)`
(the half-width divided by the bin width `1/(real_delta·nsamples)`), except
that the returned `lthresh` is `nsamples` when `w = 0`. -/
theorem calc_width_formula (fs rd : ℚ) (n : ℕ)
    (hfs : 0 ≤ fs) (hrd : 0 < rd) (hn : 0 < n) :
    calc_width fs rd n =
      (pyround (fs * rd * n) + 1,
       if pyround (fs * rd * n) = 0 then (n : ℤ) else -(pyround (fs * rd * n))) :=
  calc_width_eq fs rd n hrd hn

/-- Witness for C1: `calc_width 2 1 4 = (round 8 + 1, -round 8) = (9, -8)`. -/
theorem calc_width_formula_witness :
    calc_width 2 1 4 =
      (pyround ((2 : ℚ) * 1 * (4 : ℕ)) + 1,
       if pyround ((2 : ℚ) * 1 * (4 : ℕ)) = 0 then ((4 : ℕ) : ℤ)
       else -(pyround ((2 : ℚ) * 1 * (4 : ℕ)))) :=
  calc_width_formula 2 1 4 (by norm_num) (by norm_num) (by norm_num)

/-- Counterexample to C4 as stated: `filter_size = 3/4` is below one bin width
(`1/(1·1) = 1`), yet `calc_width (3/4) 1 1 = (2, -1) ≠ (1, 1)`, because the
half-width rounds to one bin rather than zero. -/
theorem calc_width_subbin_cex :
    calc_width (3/4) 1 1 ≠ (1, ((1 : ℕ) : ℤ)) ∧
      (0 : ℚ) ≤ 3/4 ∧ (3/4 : ℚ) < 1 / (1 * ((1 : ℕ) : ℚ)) := by
  refine ⟨?_, by norm_num, by norm_num⟩
  norm_num [calc_width, pyround, Prod.ext_iff]

/-- Claim C4 (amended): for every `real_delta > 0` and `n > 0`,
`calc_width 0 real_delta n = (1, n)`; more generally every `filter_size` with
`0 ≤ filter_size` at most *half* a bin width (`filter_size·real_delta·n ≤ 1/2`,
not a whole bin width as stated) gives `(1, n)`: the passband covers the whole
array except the DC-adjacent bin. -/
theorem calc_width_subbin (fs rd : ℚ) (n : ℕ)
    (hfs : 0 ≤ fs) (hrd : 0 < rd) (hn : 0 < n) (hsmall : fs * rd * n ≤ 1/2) :
    calc_width fs rd n = (1, (n : ℤ)) := by
  have hq0 : 0 ≤ fs * rd * n := by positivity
  have h0 : pyround (fs * rd * n) = 0 := pyround_eq_zero _ hq0 hsmall
  rw [calc_width_eq fs rd n hrd hn, h0]
  simp

/-- Witness for C4 (amended): `calc_width (1/8) 1 3 = (1, 3)`. -/
theorem calc_width_subbin_witness : calc_width (1/8) 1 3 = (1, ((3 : ℕ) : ℤ)) :=
  calc_width_subbin (1/8) 1 3 (by norm_num) (by norm_num) (by norm_num) (by norm_num)

/-! ## list helper lemmas -/

lemma mapE_ok {α β : Type} (f : α → Except PyErr β) (g : α → β) :
    ∀ (l : List α), (∀ a ∈ l, f a = .ok (g a)) → mapE f l = .ok (l.map g) := by
  intro l
  induction l with
  | nil => intro _; rfl
  | cons x xs ih =>
      intro h
      have hx := h x (List.mem_cons_self x xs)
      have hxs := ih (fun a ha => h a (List.mem_cons_of_mem x ha))
      simp [mapE, hx, hxs, Bind.bind, Except.bind]

lemma zipWithE_ok {α β : Type} (f : α → α → Except PyErr β) (g : α → α → β) :
    ∀ (l₁ l₂ : List α), (∀ p ∈ l₁.zip l₂, f p.1 p.2 = .ok (g p.1 p.2)) →
      zipWithE f l₁ l₂ = .ok (List.zipWith g l₁ l₂) := by
  intro l₁
  induction l₁ with
  | nil => intro l₂ _; cases l₂ <;> rfl
  | cons x xs ih =>
      intro l₂ h
      cases l₂ with
      | nil => rfl
      | cons y ys =>
          have hx := h (x, y) (by simp [List.zip_cons_cons])
          have hxs := ih ys (fun p hp => h p (by simp [List.zip_cons_cons, hp]))
          simp [zipWithE, hx, hxs, Bind.bind, Except.bind]

lemma bc0_of_length {op : ℚ → ℚ → ℚ} {a b : List ℚ} (h : a.length = b.length) :
    bc0 op a b = .ok (List.zipWith op a b) := by
  simp [bc0, h]

lemma tensorOp_mat_mat {op : ℚ → ℚ → ℚ} {A B : List (List ℚ)}
    (h : A.length = B.length)
    (hrows : ∀ p ∈ A.zip B, p.1.length = p.2.length) :
    tensorOp op (.mat A) (.mat B) =
      .ok (.mat (List.zipWith (List.zipWith op) A B)) := by
  have hb : bcL (bc0 op) A B = .ok (List.zipWith (List.zipWith op) A B) := by
    rw [bcL, if_pos h]
    exact zipWithE_ok _ _ _ _ (fun p hp => bc0_of_length (hrows p hp))
  simp [tensorOp, hb, Bind.bind, Except.bind]

lemma tensorOp_mat_vec {op : ℚ → ℚ → ℚ} {A : List (List ℚ)} {b : List ℚ}
    (hrows : ∀ r ∈ A, r.length = b.length) :
    tensorOp op (.mat A) (.vec b) =
      .ok (.mat (A.map (fun r => List.zipWith op r b))) := by
  have : mapE (fun row => bc0 op row b) A =
      .ok (A.map (fun r => List.zipWith op r b)) :=
    mapE_ok _ _ _ (fun r hr => bc0_of_length (hrows r hr))
  simp [tensorOp, this, Bind.bind, Except.bind]

lemma tensorOp_vec_vec {op : ℚ → ℚ → ℚ} {a b : List ℚ}
    (h : a.length = b.length) :
    tensorOp op (.vec a) (.vec b) = .ok (.vec (List.zipWith op a b)) := by
  simp [tensorOp, bc0_of_length h, Bind.bind, Except.bind]

lemma getD_of_lt {α : Type} (l : List α) (d : α) (i : ℕ) (h : i < l.length) :
    l[i]? = some (l.getD i d) := by
  rw [List.getD_eq_getElem?_getD, List.getElem?_eq_getElem h]
  simp

lemma getD_map_of_lt {α β : Type} (f : α → β) (l : List α) (d : α) (d' : β)
    (i : ℕ) (h : i < l.length) : (l.map f).getD i d' = f (l.getD i d) := by
  rw [List.getD_eq_getElem?_getD, List.getElem?_map, getD_of_lt l d i h]
  simp

lemma getD_zipWith_of_lt {α β γ : Type} (f : α → β → γ) (A : List α)
    (B : List β) (dA : α) (dB : β) (dC : γ) (i : ℕ)
    (hA : i < A.length) (hB : i < B.length) :
    (List.zipWith f A B).getD i dC = f (A.getD i dA) (B.getD i dB) := by
  rw [List.getD_eq_getElem?_getD, List.getElem?_zipWith, getD_of_lt A dA i hA,
    getD_of_lt B dB i hB]
  simp

lemma getD_range_of_lt (n i : ℕ) (h : i < n) : (List.range n).getD i 0 = i := by
  rw [List.getD_eq_getElem?_getD, List.getElem?_range h]
  simp

lemma mem_of_mem_zipWith {α β γ : Type} (f : α → β → γ) :
    ∀ (A : List α) (B : List β) (c : γ), c ∈ List.zipWith f A B →
      ∃ a ∈ A, ∃ b ∈ B, c = f a b := by
  intro A
  induction A with
  | nil => intro B c hc; simp at hc
  | cons a A' ih =>
      intro B c hc
      cases B with
      | nil => simp at hc
      | cons b B' =>
          simp only [List.zipWith_cons_cons, List.mem_cons] at hc
          rcases hc with h | h
          · exact ⟨a, by simp, b, by simp, h⟩
          · obtain ⟨a', ha', b', hb', rfl⟩ := ih B' c h
            exact ⟨a', by simp [ha'], b', by simp [hb'], rfl⟩

lemma zipWith_eq_range_map {α β γ : Type} (f : α → β → γ) (dA : α) (dB : β) :
    ∀ (A : List α) (B : List β), A.length = B.length →
      List.zipWith f A B =
        (List.range A.length).map (fun i => f (A.getD i dA) (B.getD i dB)) := by
  intro A
  induction A with
  | nil => intro B _; simp
  | cons a A' ih =>
      intro B h
      cases B with
      | nil => simp at h
      | cons b B' =>
          have h' : A'.length = B'.length := by simpa using h
          simp only [List.zipWith_cons_cons, List.length_cons,
            List.range_succ_eq_map, List.map_cons, List.map_map]
          congr 1
          rw [ih B' h']
          apply List.map_congr_left
          intro i _
          simp [Function.comp]

/-- Characterization of the 2D loop when every requested index is in range
and every weight row is nonempty. -/
lemma cleanRows_spec {ι κ : Type} (E : Externals ι κ) (dR wR : List (List ℚ))
    (area : List ℤ) (tol sw g : ℚ) (mi nchan : ℕ) :
    ∀ idxs : List ℕ,
      (∀ i ∈ idxs, i < dR.length ∧ i < wR.length ∧ 0 < (wR.getD i []).length) →
      cleanRows E dR wR area tol sw g mi nchan idxs =
        .ok (idxs.map (fun i =>
               if (wR.getD i []).getD 0 0 < sw then List.replicate nchan 0
               else E.fft (E.clean (dR.getD i []) (wR.getD i []) area tol mi g).1),
             idxs.map (fun i =>
               if (wR.getD i []).getD 0 0 < sw then FilterInfo.skipped
               else FilterInfo.cleanInfo
                 (E.delRes (E.clean (dR.getD i []) (wR.getD i []) area tol mi g).2))) := by
  intro idxs
  induction idxs with
  | nil => intro _; rfl
  | cons i rest ih =>
      intro h
      obtain ⟨hdi, hwi, hw0⟩ := h i (List.mem_cons_self i rest)
      have hrest := ih (fun j hj => h j (List.mem_cons_of_mem i hj))
      by_cases hskip : (wR.getD i []).getD 0 0 < sw
      · rw [cleanRows, if_pos hwi, if_pos hw0, if_pos hskip, hrest]
        have hs2 := hskip
        simp only [List.getD_eq_getElem?_getD] at hs2
        simp [Except.map, hs2]
      · rw [cleanRows, if_pos hwi, if_pos hw0, if_neg hskip, if_pos hdi, hrest]
        have hs2 := hskip
        simp only [List.getD_eq_getElem?_getD] at hs2
        simp [Except.map, hs2]

lemma exbind_ok {α β : Type} (a : α) (f : α → Except PyErr β) :
    (Except.ok a >>= f) = f a := rfl

lemma getD_mem_of_lt {α : Type} (l : List α) (d : α) (i : ℕ) (h : i < l.length) :
    l.getD i d ∈ l := by
  rw [List.getD_eq_getElem?_getD, List.getElem?_eq_getElem h]
  simp [List.getElem_mem]

/-- Characterization of `high_pass_fourier_filter` on a shape-uniform 2D
input with same-shape weights whose external transforms preserve lengths:
the call succeeds, and row `i` of the model, the residual and the metadata
is `rowFilter` (resp. the raw data row minus its model row) of row `i` of
the inputs. -/
lemma hpff_two_dim {ι κ : Type} (E : Externals ι κ)
    (hIf : ∀ l, (E.ifft l).length = l.length)
    (hFf : ∀ l, (E.fft l).length = l.length)
    (hCl : ∀ d w a t m g, (E.clean d w a t m g).1.length = d.length)
    (hGw : ∀ n s k, (E.genWindow n s k).length = n)
    (D W : List (List ℚ)) (nchan : ℕ) (hn : 0 < nchan)
    (hD : ∀ r ∈ D, r.length = nchan) (hW : ∀ r ∈ W, r.length = nchan)
    (hlen : D.length = W.length) (hne : D ≠ [])
    (fs rd tol : ℚ) (wn : String) (sw : ℚ) (mi : ℕ) (g : ℚ) (kw : κ) :
    high_pass_fourier_filter E (.mat D) (.mat W) fs rd tol wn sw mi g kw =
      .ok (.mat ((List.range D.length).map (fun i =>
              (rowFilter E (E.genWindow nchan wn kw)
                (mkArea nchan (calc_width fs rd nchan).1 (calc_width fs rd nchan).2)
                tol sw g mi nchan (D.getD i []) (W.getD i [])).1)),
           .mat ((List.range D.length).map (fun i =>
              List.zipWith (· - ·) (D.getD i [])
                (rowFilter E (E.genWindow nchan wn kw)
                  (mkArea nchan (calc_width fs rd nchan).1 (calc_width fs rd nchan).2)
                  tol sw g mi nchan (D.getD i []) (W.getD i [])).1)),
           .rows ((List.range D.length).map (fun i =>
              (rowFilter E (E.genWindow nchan wn kw)
                (mkArea nchan (calc_width fs rd nchan).1 (calc_width fs rd nchan).2)
                tol sw g mi nchan (D.getD i []) (W.getD i [])).2))) := by
  set winL := E.genWindow nchan wn kw with hwinL
  set area := mkArea nchan (calc_width fs rd nchan).1 (calc_width fs rd nchan).2
    with harea
  have hwl : winL.length = nchan := hGw nchan wn kw
  have hnch : lastDim (Tensor.mat D) = nchan := by
    cases D with
    | nil => exact absurd rfl hne
    | cons r tl => simpa [lastDim] using hD r (List.mem_cons_self r tl)
  have hzipDW : ∀ p ∈ D.zip W, p.1.length = p.2.length := by
    intro p hp
    obtain ⟨h1, h2⟩ := List.mem_zip hp
    rw [hD _ h1, hW _ h2]
  have h1 : tmul (Tensor.mat D) (Tensor.mat W) =
      .ok (.mat (List.zipWith (List.zipWith (· * ·)) D W)) :=
    tensorOp_mat_mat hlen hzipDW
  have hDWrows : ∀ r ∈ List.zipWith (List.zipWith (· * ·)) D W,
      r.length = nchan := by
    intro r hr
    obtain ⟨a, ha, b, hb, rfl⟩ := mem_of_mem_zipWith _ _ _ _ hr
    rw [List.length_zipWith, hD _ ha, hW _ hb, min_self]
  have h2 : tmul (.mat (List.zipWith (List.zipWith (· * ·)) D W)) (.vec winL) =
      .ok (.mat ((List.zipWith (List.zipWith (· * ·)) D W).map
        (fun r => List.zipWith (· * ·) r winL))) :=
    tensorOp_mat_vec (fun r hr => by rw [hDWrows r hr, hwl])
  have h3 : tmul (Tensor.mat W) (.vec winL) =
      .ok (.mat (W.map (fun r => List.zipWith (· * ·) r winL))) :=
    tensorOp_mat_vec (fun r hr => by rw [hW r hr, hwl])
  have hDWlen : (List.zipWith (List.zipWith (· * ·)) D W).length = D.length := by
    rw [List.length_zipWith, hlen, min_self]
  -- the transformed row lists handed to the 2D loop
  have hdRlen :
      (((List.zipWith (List.zipWith (· * ·)) D W).map
        (fun r => List.zipWith (· * ·) r winL)).map E.ifft).length = D.length := by
    simp [hDWlen]
  have hwRlen :
      ((W.map (fun r => List.zipWith (· * ·) r winL)).map E.ifft).length
        = D.length := by
    simp [hlen]
  have hwRget : ∀ i, i < D.length →
      ((W.map (fun r => List.zipWith (· * ·) r winL)).map E.ifft).getD i []
        = E.ifft (List.zipWith (· * ·) (W.getD i []) winL) := by
    intro i hi
    have hiW : i < W.length := hlen ▸ hi
    rw [getD_map_of_lt E.ifft _ [] [] i (by simpa using hiW),
        getD_map_of_lt _ _ [] [] i hiW]
  have hdRget : ∀ i, i < D.length →
      (((List.zipWith (List.zipWith (· * ·)) D W).map
        (fun r => List.zipWith (· * ·) r winL)).map E.ifft).getD i []
        = E.ifft (List.zipWith (· * ·)
            (List.zipWith (· * ·) (D.getD i []) (W.getD i [])) winL) := by
    intro i hi
    have hiW : i < W.length := hlen ▸ hi
    rw [getD_map_of_lt E.ifft _ [] [] i
          (by simp only [List.length_map, hDWlen]; exact hi),
        getD_map_of_lt _ _ [] [] i (by simp only [hDWlen]; exact hi),
        getD_zipWith_of_lt _ _ _ [] [] [] i hi hiW]
  have hwRrowlen : ∀ i, i < D.length →
      (((W.map (fun r => List.zipWith (· * ·) r winL)).map E.ifft).getD i []).length
        = nchan := by
    intro i hi
    have hiW : i < W.length := hlen ▸ hi
    rw [hwRget i hi, hIf, List.length_zipWith, hW _ (getD_mem_of_lt _ _ _ hiW),
      hwl, min_self]
  have hloop := cleanRows_spec E
    (((List.zipWith (List.zipWith (· * ·)) D W).map
       (fun r => List.zipWith (· * ·) r winL)).map E.ifft)
    ((W.map (fun r => List.zipWith (· * ·) r winL)).map E.ifft)
    area tol sw g mi nchan (List.range D.length)
    (by
      intro i hi
      have hi' : i < D.length := List.mem_range.mp hi
      refine ⟨?_, ?_, ?_⟩
      · rw [hdRlen]; exact hi'
      · rw [hwRlen]; exact hi'
      · rw [hwRrowlen i hi']; exact hn)
  -- assemble the core
  have hcore : hpffCore E (.mat D) (.mat W) fs rd tol wn sw mi g kw =
      .ok (.mat ((List.range D.length).map (fun i =>
              (rowFilter E winL area tol sw g mi nchan
                (D.getD i []) (W.getD i [])).1)),
           .rows ((List.range D.length).map (fun i =>
              (rowFilter E winL area tol sw g mi nchan
                (D.getD i []) (W.getD i [])).2))) := by
    rw [hpffCore.eq_def]
    simp only [hnch, ← hwinL]
    rw [h1, exbind_ok, h2, exbind_ok, h3, exbind_ok]
    simp only [mapLast, ← harea]
    rw [hloop, exbind_ok]
    refine congrArg Except.ok (Prod.ext ?_ ?_)
    · refine congrArg Tensor.mat (List.map_congr_left ?_)
      intro i hi
      have hi' : i < D.length := List.mem_range.mp hi
      rw [hwRget i hi', hdRget i hi']
      by_cases hc :
        (E.ifft (List.zipWith (· * ·) ((W[i]?).getD []) winL))[0]?.getD 0 < sw
      · simp [rowFilter, hc]
      · simp [rowFilter, hc]
    · refine congrArg InfoOut.rows (List.map_congr_left ?_)
      intro i hi
      have hi' : i < D.length := List.mem_range.mp hi
      rw [hwRget i hi', hdRget i hi']
      by_cases hc :
        (E.ifft (List.zipWith (· * ·) ((W[i]?).getD []) winL))[0]?.getD 0 < sw
      · simp [rowFilter, hc]
      · simp [rowFilter, hc]
  -- lengths of the model rows, for the final subtraction
  have hMrows : ∀ r ∈ (List.range D.length).map (fun i =>
      (rowFilter E winL area tol sw g mi nchan (D.getD i []) (W.getD i [])).1),
      r.length = nchan := by
    intro r hr
    obtain ⟨i, hi, rfl⟩ := List.mem_map.mp hr
    have hi' : i < D.length := List.mem_range.mp hi
    have hiW : i < W.length := hlen ▸ hi'
    by_cases hc :
      (E.ifft (List.zipWith (· * ·) ((W[i]?).getD []) winL))[0]?.getD 0 < sw
    · simp [rowFilter, hc]
    · simp [rowFilter, hc]
      rw [hFf, hCl, hIf]
      simp only [← List.getD_eq_getElem?_getD]
      rw [List.length_zipWith, List.length_zipWith,
        hD _ (getD_mem_of_lt _ _ _ hi'), hW _ (getD_mem_of_lt _ _ _ hiW),
        hwl, min_self, min_self]
  have hMlen : ((List.range D.length).map (fun i =>
      (rowFilter E winL area tol sw g mi nchan (D.getD i []) (W.getD i [])).1)).length
        = D.length := by simp
  have hres : tsub (Tensor.mat D)
      (.mat ((List.range D.length).map (fun i =>
        (rowFilter E winL area tol sw g mi nchan (D.getD i []) (W.getD i [])).1)))
      = .ok (.mat (List.zipWith (List.zipWith (· - ·)) D
          ((List.range D.length).map (fun i =>
            (rowFilter E winL area tol sw g mi nchan
              (D.getD i []) (W.getD i [])).1)))) := by
    refine tensorOp_mat_mat (by rw [hMlen]) ?_
    intro p hp
    obtain ⟨hp1, hp2⟩ := List.mem_zip hp
    rw [hD _ hp1, hMrows _ hp2]
  rw [high_pass_fourier_filter.eq_def, hcore, exbind_ok]
  simp only []
  rw [hres, exbind_ok]
  refine congrArg Except.ok ?_
  refine congrArg₂ Prod.mk rfl (congrArg₂ Prod.mk ?_ rfl)
  refine congrArg Tensor.mat ?_
  rw [zipWith_eq_range_map (List.zipWith (· - ·)) [] [] D _ (by rw [hMlen])]
  refine List.map_congr_left ?_
  intro i hi
  have hi' : i < D.length := List.mem_range.mp hi
  rw [getD_map_of_lt _ _ 0 [] i (by simpa using hi'), getD_range_of_lt _ _ hi']

lemma exbind_err {α β : Type} (e : PyErr) (f : α → Except PyErr β) :
    ((Except.error e : Except PyErr α) >>= f) = .error e := rfl

lemma tensorOp_cube_cube {op : ℚ → ℚ → ℚ} {A B : List (List (List ℚ))}
    (h : A.length = B.length)
    (hp : ∀ p ∈ A.zip B, p.1.length = p.2.length ∧
      ∀ q ∈ p.1.zip p.2, q.1.length = q.2.length) :
    tensorOp op (.cube A) (.cube B) =
      .ok (.cube (List.zipWith (List.zipWith (List.zipWith op)) A B)) := by
  have hb : bcL (bcL (bc0 op)) A B =
      .ok (List.zipWith (List.zipWith (List.zipWith op)) A B) := by
    rw [bcL, if_pos h]
    refine zipWithE_ok _ _ _ _ (fun p hpz => ?_)
    obtain ⟨h1, h2⟩ := hp p hpz
    rw [bcL, if_pos h1]
    exact zipWithE_ok _ _ _ _ (fun q hq => bc0_of_length (h2 q hq))
  simp [tensorOp, hb, Bind.bind, Except.bind]

lemma tensorOp_cube_vec {op : ℚ → ℚ → ℚ} {C : List (List (List ℚ))}
    {b : List ℚ} (hrows : ∀ p ∈ C, ∀ r ∈ p, r.length = b.length) :
    tensorOp op (.cube C) (.vec b) =
      .ok (.cube (C.map (fun p => p.map (fun r => List.zipWith op r b)))) := by
  have hm : mapE (fun plane => mapE (fun row => bc0 op row b) plane) C =
      .ok (C.map (fun p => p.map (fun r => List.zipWith op r b))) :=
    mapE_ok _ _ _ (fun p hp =>
      mapE_ok _ _ _ (fun r hr => bc0_of_length (hrows p hp r hr)))
  simp [tensorOp, hm, Bind.bind, Except.bind]

/-- The elementwise subtraction `data - d_mdl` on same-shape arrays never
broadcasts or fails. -/
lemma tsub_of_sameShape : ∀ {a b : Tensor}, sameShape a b = true →
    tsub a b = .ok (elemSub a b) := by
  intro a b h
  cases a <;> cases b <;> simp [sameShape] at h
  case vec.vec x y =>
    simp [tsub, elemSub, tensorOp_vec_vec h]
  case mat.mat A B =>
    rw [tsub, tensorOp_mat_mat h.1 (fun p hp => h.2 p.1 p.2 hp), elemSub]
  case cube.cube A B =>
    rw [tsub, tensorOp_cube_cube h.1
      (fun p hp => ⟨(h.2 p.1 p.2 hp).1, fun q hq => (h.2 p.1 p.2 hp).2 q.1 q.2 hq⟩),
      elemSub]

/-- Claim C3: whenever `high_pass_fourier_filter` returns, the residual is
the elementwise difference of the original data and the returned model (the
model has the data's shape in every real run, since the transforms preserve
length): no weights and no window enter this difference. -/
theorem hpff_residual_is_data_minus_model {ι κ : Type} (E : Externals ι κ)
    (data wgts : Tensor) (fs rd tol : ℚ) (wn : String) (sw : ℚ) (mi : ℕ)
    (g : ℚ) (kw : κ) (mdl res : Tensor) (inf : InfoOut ι)
    (h : high_pass_fourier_filter E data wgts fs rd tol wn sw mi g kw =
      .ok (mdl, res, inf))
    (hs : sameShape data mdl = true) : res = elemSub data mdl := by
  rw [high_pass_fourier_filter.eq_def] at h
  cases hc : hpffCore E data wgts fs rd tol wn sw mi g kw with
  | error e =>
      rw [hc, exbind_err] at h
      exact absurd h (by simp)
  | ok p =>
      rw [hc, exbind_ok] at h
      cases ht : tsub data p.1 with
      | error e =>
          rw [ht, exbind_err] at h
          exact absurd h (by simp)
      | ok r =>
          rw [ht, exbind_ok] at h
          simp only [Except.ok.injEq, Prod.mk.injEq] at h
          obtain ⟨hm, hr, _⟩ := h
          rw [hm] at ht
          rw [tsub_of_sameShape hs] at ht
          simp only [Except.ok.injEq] at ht
          rw [← hr, ← ht]

/-- Witness for C3 at a concrete run: filtering `[1,2]` with unit weights and
the model-returning externals gives residual `[0,0] = [1,2] - [1,2]`. -/
theorem hpff_residual_is_data_minus_model_witness :
    (Tensor.vec [0, 0]) = elemSub (Tensor.vec [1, 2]) (Tensor.vec [1, 2]) :=
  hpff_residual_is_data_minus_model trivExt (.vec [1, 2]) (.vec [1, 1])
    0 1 0 "" 0 0 0 () (.vec [1, 2]) (.vec [0, 0]) (.single ())
    (by norm_num [high_pass_fourier_filter, hpffCore, trivExt, tmul, tsub,
      tensorOp, bc0, mapLast, lastDim, Bind.bind, Except.bind,
      List.replicate, List.zipWith])
    (by norm_num [sameShape])

/-- Claim C7: `delay_filter` is exactly `high_pass_fourier_filter` at
`filter_size = max (horizon·bl_len + standoff) min_dly`, with all other
parameters forwarded unchanged. -/
theorem delay_filter_forwards {ι κ : Type} (E : Externals ι κ)
    (data wgts : Tensor) (bl_len sdf standoff horizon min_dly tol : ℚ)
    (window : String) (skip_wgt : ℚ) (maxiter : ℕ) (gain : ℚ) (winKw : κ) :
    delay_filter E data wgts bl_len sdf standoff horizon min_dly tol window
        skip_wgt maxiter gain winKw =
      high_pass_fourier_filter E data wgts (max (horizon * bl_len + standoff)
        min_dly) sdf tol window skip_wgt maxiter gain winKw := rfl

/-- Claim C9: with empty `filter_centers`/`filter_widths`/`filter_factors`,
`sinc_downweight_mat_inv` is exactly the `n×n` identity matrix, whatever the
sinc kernel and the sample spacing. -/
theorem sinc_downweight_mat_inv_empty (sincF : ℚ → ℚ) (n : ℕ) (df : ℚ)
    (hn : 0 < n) :
    sinc_downweight_mat_inv sincF n df [] [] [] = 1 := by
  ext i j
  simp [sinc_downweight_mat_inv, Matrix.one_apply]

/-- Witness for C9 at `n = 2`. -/
theorem sinc_downweight_mat_inv_empty_witness :
    0 < 2 ∧ sinc_downweight_mat_inv (fun _ => 0) 2 1 [] [] [] = 1 :=
  ⟨by norm_num, sinc_downweight_mat_inv_empty (fun _ => 0) 2 1 (by norm_num)⟩

/-- On 1D data the core never consults `skip_wgt`. -/
lemma hpffCore_vec_sw {ι κ : Type} (E : Externals ι κ) (d : List ℚ)
    (wgts : Tensor) (fs rd tol : ℚ) (wn : String) (mi : ℕ) (g : ℚ) (kw : κ)
    (s1 s2 : ℚ) :
    hpffCore E (.vec d) wgts fs rd tol wn s1 mi g kw =
      hpffCore E (.vec d) wgts fs rd tol wn s2 mi g kw := by
  rw [hpffCore.eq_def, hpffCore.eq_def]
  cases h1 : tmul (Tensor.vec d) wgts with
  | error e => simp only [h1, exbind_err]
  | ok dw =>
      simp only [h1, exbind_ok]
      cases h2 : tmul dw
          (Tensor.vec (E.genWindow (lastDim (Tensor.vec d)) wn kw)) with
      | error e => simp only [h2, exbind_err]
      | ok dww =>
          simp only [h2, exbind_ok]
          cases h3 : tmul wgts
              (Tensor.vec (E.genWindow (lastDim (Tensor.vec d)) wn kw)) with
          | error e => simp only [h3, exbind_err]
          | ok ww =>
              simp only [h3, exbind_ok]
              cases dww <;> cases ww <;> rfl

/-- On 1D data a successful core run always returns the single-dictionary
metadata of the CLEAN path (never a skip marker). -/
lemma hpffCore_vec_single {ι κ : Type} (E : Externals ι κ) (d : List ℚ)
    (wgts : Tensor) (fs rd tol : ℚ) (wn : String) (sw : ℚ) (mi : ℕ) (g : ℚ)
    (kw : κ) (p : Tensor × InfoOut ι)
    (h : hpffCore E (.vec d) wgts fs rd tol wn sw mi g kw = .ok p) :
    ∃ x, p.2 = .single x := by
  rw [hpffCore.eq_def] at h
  cases h1 : tmul (Tensor.vec d) wgts with
  | error e => rw [h1, exbind_err] at h; exact absurd h (by simp)
  | ok dw =>
      rw [h1, exbind_ok] at h
      cases h2 : tmul dw
          (Tensor.vec (E.genWindow (lastDim (Tensor.vec d)) wn kw)) with
      | error e => rw [h2, exbind_err] at h; exact absurd h (by simp)
      | ok dww =>
          rw [h2, exbind_ok] at h
          cases h3 : tmul wgts
              (Tensor.vec (E.genWindow (lastDim (Tensor.vec d)) wn kw)) with
          | error e => rw [h3, exbind_err] at h; exact absurd h (by simp)
          | ok ww =>
              rw [h3, exbind_ok] at h
              cases dww <;> cases ww <;>
                first
                  | (simp only [mapLast, Except.ok.injEq] at h;
                     exact ⟨_, by rw [← h]⟩)
                  | exact absurd h (by simp [mapLast])

/-- Claim C10: on 1D input (data and weights both one-dimensional) the result
of `high_pass_fourier_filter` does not depend on `skip_wgt` at all, and the
returned metadata is always the CLEAN path's single dictionary — the
row-skipping policy exists only for 2D input, so a 1D spectrum is never
skipped, whatever its weights. -/
theorem hpff_one_dim_ignores_skip_wgt {ι κ : Type} (E : Externals ι κ)
    (d w : List ℚ) (fs rd tol : ℚ) (wn : String) (mi : ℕ) (g : ℚ) (kw : κ)
    (s1 s2 : ℚ) :
    high_pass_fourier_filter E (.vec d) (.vec w) fs rd tol wn s1 mi g kw =
      high_pass_fourier_filter E (.vec d) (.vec w) fs rd tol wn s2 mi g kw ∧
    ∀ m r inf, high_pass_fourier_filter E (.vec d) (.vec w) fs rd tol wn s1
        mi g kw = .ok (m, r, inf) → ∃ x, inf = .single x := by
  constructor
  · rw [high_pass_fourier_filter.eq_def, high_pass_fourier_filter.eq_def,
      hpffCore_vec_sw E d (.vec w) fs rd tol wn mi g kw s1 s2]
  · intro m r inf h
    rw [high_pass_fourier_filter.eq_def] at h
    cases hc : hpffCore E (.vec d) (.vec w) fs rd tol wn s1 mi g kw with
    | error e => rw [hc, exbind_err] at h; exact absurd h (by simp)
    | ok p =>
        rw [hc, exbind_ok] at h
        cases ht : tsub (Tensor.vec d) p.1 with
        | error e => rw [ht, exbind_err] at h; exact absurd h (by simp)
        | ok res =>
            rw [ht, exbind_ok] at h
            simp only [Except.ok.injEq, Prod.mk.injEq] at h
            obtain ⟨x, hx⟩ := hpffCore_vec_single E d (.vec w) fs rd tol wn
              s1 mi g kw p hc
            exact ⟨x, by rw [← h.2.2, hx]⟩

/-- Witness for C10: concrete 1D run with zero weights, two different
`skip_wgt` values, equal results and single-dictionary metadata. -/
theorem hpff_one_dim_ignores_skip_wgt_witness :
    (high_pass_fourier_filter trivExt (.vec [1, 2]) (.vec [0, 0]) 0 1 0 ""
        (1/2) 0 0 () =
      high_pass_fourier_filter trivExt (.vec [1, 2]) (.vec [0, 0]) 0 1 0 ""
        (9/10) 0 0 ()) ∧
    ∀ m r inf, high_pass_fourier_filter trivExt (.vec [1, 2]) (.vec [0, 0])
        0 1 0 "" (1/2) 0 0 () = .ok (m, r, inf) → ∃ x, inf = .single x :=
  hpff_one_dim_ignores_skip_wgt trivExt [1, 2] [0, 0] 0 1 0 "" 0 0 ()
    (1/2) (9/10)

/-- Claim C8: for 2D input, `high_pass_fourier_filter` is row-wise
noninterfering: under the shapes of a real run, both calls succeed, the
output lists have one entry per input row in order, and row `i` of the model,
the residual and the metadata agrees between any two inputs that agree on row
`i` of the data and of the weights (with the same scalar parameters). -/
theorem hpff_row_noninterference {ι κ : Type} (E : Externals ι κ)
    (hIf : ∀ l, (E.ifft l).length = l.length)
    (hFf : ∀ l, (E.fft l).length = l.length)
    (hCl : ∀ d w a t m g, (E.clean d w a t m g).1.length = d.length)
    (hGw : ∀ n s k, (E.genWindow n s k).length = n)
    (D W Dx Wx : List (List ℚ)) (nchan : ℕ) (hn : 0 < nchan)
    (hD : ∀ r ∈ D, r.length = nchan) (hW : ∀ r ∈ W, r.length = nchan)
    (hDx : ∀ r ∈ Dx, r.length = nchan) (hWx : ∀ r ∈ Wx, r.length = nchan)
    (hlen : D.length = W.length) (hlenx : Dx.length = Wx.length)
    (i : ℕ) (hi : i < D.length) (hix : i < Dx.length)
    (hrowD : D[i]? = Dx[i]?) (hrowW : W[i]? = Wx[i]?)
    (fs rd tol : ℚ) (wn : String) (sw : ℚ) (mi : ℕ) (g : ℚ) (kw : κ) :
    ∃ M R I Mx Rx Ix,
      high_pass_fourier_filter E (.mat D) (.mat W) fs rd tol wn sw mi g kw =
        .ok (.mat M, .mat R, .rows I) ∧
      high_pass_fourier_filter E (.mat Dx) (.mat Wx) fs rd tol wn sw mi g kw =
        .ok (.mat Mx, .mat Rx, .rows Ix) ∧
      M.length = D.length ∧ Mx.length = Dx.length ∧
      M[i]? = Mx[i]? ∧ R[i]? = Rx[i]? ∧ I[i]? = Ix[i]? := by
  have hne : D ≠ [] := by
    intro h0
    rw [h0] at hi
    simp at hi
  have hnex : Dx ≠ [] := by
    intro h0
    rw [h0] at hix
    simp at hix
  have hm := hpff_two_dim E hIf hFf hCl hGw D W nchan hn hD hW hlen hne
    fs rd tol wn sw mi g kw
  have hmx := hpff_two_dim E hIf hFf hCl hGw Dx Wx nchan hn hDx hWx hlenx hnex
    fs rd tol wn sw mi g kw
  have hDg : D.getD i [] = Dx.getD i [] := by
    rw [List.getD_eq_getElem?_getD, List.getD_eq_getElem?_getD, hrowD]
  have hWg : W.getD i [] = Wx.getD i [] := by
    rw [List.getD_eq_getElem?_getD, List.getD_eq_getElem?_getD, hrowW]
  refine ⟨_, _, _, _, _, _, hm, hmx, by simp, by simp, ?_, ?_, ?_⟩ <;>
    (rw [List.getElem?_map, List.getElem?_map, List.getElem?_range hi,
       List.getElem?_range hix]
     simp only [Option.map_some']
     rw [hDg, hWg])

/-- Witness for C8: two concrete 2-row inputs agreeing on row 0 give the same
row-0 outputs. -/
theorem hpff_row_noninterference_witness :
    ∃ M R I Mx Rx Ix,
      high_pass_fourier_filter trivExt (.mat [[1], [2]]) (.mat [[1], [1]])
          0 1 0 "" 0 0 0 () = .ok (.mat M, .mat R, .rows I) ∧
      high_pass_fourier_filter trivExt (.mat [[1], [3]]) (.mat [[1], [1]])
          0 1 0 "" 0 0 0 () = .ok (.mat Mx, .mat Rx, .rows Ix) ∧
      M.length = [[(1 : ℚ)], [2]].length ∧ Mx.length = [[(1 : ℚ)], [3]].length ∧
      M[0]? = Mx[0]? ∧ R[0]? = Rx[0]? ∧ I[0]? = Ix[0]? :=
  hpff_row_noninterference trivExt (fun _ => rfl) (fun _ => rfl)
    (fun _ _ _ _ _ _ => rfl) (fun n _ _ => List.length_replicate n 1)
    [[1], [2]] [[1], [1]] [[1], [3]] [[1], [1]] 1 (by norm_num)
    (by intro r hr; fin_cases hr <;> rfl) (by intro r hr; fin_cases hr <;> rfl)
    (by intro r hr; fin_cases hr <;> rfl) (by intro r hr; fin_cases hr <;> rfl)
    rfl rfl 0 (by norm_num) (by norm_num) rfl rfl 0 1 0 "" 0 0 0 ()

lemma bc0Stretch_left {op : ℚ → ℚ → ℚ} (x : ℚ) :
    ∀ b : List ℚ, bc0Stretch op [x] b = .ok (b.map (fun y => op x y)) := by
  intro b
  match b with
  | [] => rfl
  | [y] => rfl
  | y :: t :: r => rfl

lemma bc0Stretch_right {op : ℚ → ℚ → ℚ} :
    ∀ (a : List ℚ) (y : ℚ), a.length ≠ 1 →
      bc0Stretch op a [y] = .ok (a.map (fun x => op x y)) := by
  intro a y h
  match a with
  | [] => rfl
  | [x] => exact absurd rfl h
  | x :: t :: r => rfl

/-- Tail of `high_pass_fourier_filter` on 1D data once the core has been
computed: the residual subtraction succeeds when the model has the data's
length. -/
lemma hpff_ok_of_core_vec {ι κ : Type} (E : Externals ι κ) (d : List ℚ)
    (wgts : Tensor) (fs rd tol : ℚ) (wn : String) (sw : ℚ) (mi : ℕ)
    (g : ℚ) (kw : κ) (m : List ℚ) (inf : InfoOut ι)
    (hcore : hpffCore E (.vec d) wgts fs rd tol wn sw mi g kw =
      .ok (.vec m, inf))
    (hm : d.length = m.length) :
    high_pass_fourier_filter E (.vec d) wgts fs rd tol wn sw mi g kw =
      .ok (.vec m, .vec (List.zipWith (· - ·) d m), inf) := by
  rw [high_pass_fourier_filter.eq_def, hcore, exbind_ok]
  have hs : tsub (Tensor.vec d) (Tensor.vec m) =
      .ok (.vec (List.zipWith (· - ·) d m)) := tensorOp_vec_vec hm
  rw [hs, exbind_ok]

/-- Claim C6 (amended): dimensionality other than 1 or 2 does raise the
`ValueError` (shown for rank 3, after the weighting products), but mismatched
data/weights shapes are *not* a failure condition of their own: numpy
broadcasting decides them, and a broadcastable mismatch — e.g. length-1 1D
weights against longer 1D data — is accepted and returns a result. -/
theorem hpff_error_behavior {ι κ : Type} :
    (∀ (E : Externals ι κ) (C Wc : List (List (List ℚ))) (nchan : ℕ)
       (_ : ∀ n s k, (E.genWindow n s k).length = n)
       (_ : ∀ p ∈ C, ∀ r ∈ p, r.length = nchan)
       (_ : ∀ p ∈ Wc, ∀ r ∈ p, r.length = nchan)
       (_ : C.length = Wc.length)
       (_ : ∀ p ∈ C.zip Wc, p.1.length = p.2.length ∧
         ∀ q ∈ p.1.zip p.2, q.1.length = q.2.length)
       (_ : lastDim (Tensor.cube C) = nchan)
       (fs rd tol : ℚ) (wn : String) (sw : ℚ) (mi : ℕ) (g : ℚ) (kw : κ),
       high_pass_fourier_filter E (.cube C) (.cube Wc) fs rd tol wn sw mi g kw
         = .error (.valueError "data must be a 1D or 2D array")) ∧
    (∀ (E : Externals ι κ)
       (_ : ∀ l, (E.ifft l).length = l.length)
       (_ : ∀ l, (E.fft l).length = l.length)
       (_ : ∀ d w a t m g, (E.clean d w a t m g).1.length = d.length)
       (_ : ∀ n s k, (E.genWindow n s k).length = n)
       (d : List ℚ) (c : ℚ) (_ : 2 ≤ d.length)
       (fs rd tol : ℚ) (wn : String) (sw : ℚ) (mi : ℕ) (g : ℚ) (kw : κ),
       sameShape (Tensor.vec d) (Tensor.vec [c]) = false ∧
       ∃ out, high_pass_fourier_filter E (.vec d) (.vec [c]) fs rd tol wn sw
         mi g kw = .ok out) := by
  constructor
  · intro E C Wc nchan hGw hC hWc hlen hpl hnch fs rd tol wn sw mi g kw
    have h1 : tmul (Tensor.cube C) (Tensor.cube Wc) =
        .ok (.cube (List.zipWith (List.zipWith (List.zipWith (· * ·))) C Wc)) :=
      tensorOp_cube_cube hlen hpl
    have hZrows : ∀ p ∈ List.zipWith (List.zipWith (List.zipWith (· * ·))) C Wc,
        ∀ r ∈ p, r.length = nchan := by
      intro p hp r hr
      obtain ⟨pa, hpa, pb, hpb, rfl⟩ := mem_of_mem_zipWith _ _ _ _ hp
      obtain ⟨ra, hra, rb, hrb, rfl⟩ := mem_of_mem_zipWith _ _ _ _ hr
      rw [List.length_zipWith, hC _ hpa _ hra, hWc _ hpb _ hrb, min_self]
    have h2 : tmul (.cube (List.zipWith (List.zipWith (List.zipWith (· * ·))) C Wc))
        (.vec (E.genWindow nchan wn kw)) =
        .ok (.cube ((List.zipWith (List.zipWith (List.zipWith (· * ·))) C Wc).map
          (fun p => p.map (fun r =>
            List.zipWith (· * ·) r (E.genWindow nchan wn kw))))) :=
      tensorOp_cube_vec (fun p hp r hr => by rw [hZrows p hp r hr, hGw])
    have h3 : tmul (Tensor.cube Wc) (.vec (E.genWindow nchan wn kw)) =
        .ok (.cube (Wc.map (fun p => p.map (fun r =>
          List.zipWith (· * ·) r (E.genWindow nchan wn kw))))) :=
      tensorOp_cube_vec (fun p hp r hr => by rw [hWc p hp r hr, hGw])
    have hcore : hpffCore E (.cube C) (.cube Wc) fs rd tol wn sw mi g kw =
        .error (.valueError "data must be a 1D or 2D array") := by
      rw [hpffCore.eq_def]
      simp only [hnch]
      rw [h1, exbind_ok, h2, exbind_ok, h3, exbind_ok]
    rw [high_pass_fourier_filter.eq_def, hcore, exbind_err]
  · intro E hIf hFf hCl hGw d c h2 fs rd tol wn sw mi g kw
    have hn1 : d.length ≠ 1 := by omega
    refine ⟨by simp [sameShape]; omega, ?_⟩
    have hwl : (E.genWindow d.length wn kw).length = d.length := hGw _ _ _
    have h1 : tmul (Tensor.vec d) (Tensor.vec [c]) =
        .ok (.vec (d.map (fun x => x * c))) := by
      have hb : bc0 (· * ·) d [c] = .ok (d.map (fun x => x * c)) := by
        rw [bc0, if_neg (by simpa using hn1), bc0Stretch_right d c hn1]
      simp [tmul, tensorOp, hb, Bind.bind, Except.bind]
    have h2' : tmul (.vec (d.map (fun x => x * c)))
        (.vec (E.genWindow d.length wn kw)) =
        .ok (.vec (List.zipWith (· * ·) (d.map (fun x => x * c))
          (E.genWindow d.length wn kw))) :=
      tensorOp_vec_vec (by simp [hwl])
    have h3' : tmul (Tensor.vec [c]) (.vec (E.genWindow d.length wn kw)) =
        .ok (.vec ((E.genWindow d.length wn kw).map (fun y => c * y))) := by
      have hb : bc0 (· * ·) [c] (E.genWindow d.length wn kw) =
          .ok ((E.genWindow d.length wn kw).map (fun y => c * y)) := by
        rw [bc0, if_neg (by rw [hwl]; simpa using fun hh => hn1 hh.symm),
          bc0Stretch_left]
      simp [tmul, tensorOp, hb, Bind.bind, Except.bind]
    have hcore : hpffCore E (.vec d) (.vec [c]) fs rd tol wn sw mi g kw =
        .ok (.vec (E.fft (E.clean
            (E.ifft (List.zipWith (· * ·) (d.map (fun x => x * c))
              (E.genWindow d.length wn kw)))
            (E.ifft ((E.genWindow d.length wn kw).map (fun y => c * y)))
            (mkArea d.length (calc_width fs rd d.length).1
              (calc_width fs rd d.length).2) tol mi g).1),
          .single (E.delRes (E.clean
            (E.ifft (List.zipWith (· * ·) (d.map (fun x => x * c))
              (E.genWindow d.length wn kw)))
            (E.ifft ((E.genWindow d.length wn kw).map (fun y => c * y)))
            (mkArea d.length (calc_width fs rd d.length).1
              (calc_width fs rd d.length).2) tol mi g).2)) := by
      rw [hpffCore.eq_def]
      simp only [lastDim]
      rw [h1, exbind_ok, h2', exbind_ok, h3', exbind_ok]
      rfl
    refine ⟨_, hpff_ok_of_core_vec E d (.vec [c]) fs rd tol wn sw mi g kw
      _ _ hcore ?_⟩
    rw [hFf, hCl, hIf, List.length_zipWith, List.length_map, hwl, min_self]

/-- Counterexample to C6 as stated: data `[1,2]` and weights `[5]` have
mismatched shapes (lengths 2 vs 1), yet the call raises nothing — numpy
broadcasting stretches the single weight and the filter returns a result. -/
theorem hpff_shape_mismatch_cex :
    high_pass_fourier_filter trivExt (.vec [1, 2]) (.vec [5]) 0 1 0 "" 0 0 0 ()
      = .ok (.vec [5, 10], .vec [-4, -8], .single ()) ∧
    [(1 : ℚ), 2].length ≠ [(5 : ℚ)].length := by
  constructor
  · norm_num [high_pass_fourier_filter, hpffCore, trivExt, tmul, tsub,
      tensorOp, bc0, bc0Stretch, mapLast, lastDim, calc_width, pyround,
      mkArea, List.replicate, List.zipWith, Bind.bind, Except.bind]
  · norm_num

/-- Witness for C6 (amended), both parts at concrete inputs: a 1×1×1 cube
raises the `ValueError`, and `[1,2]` against the mismatched `[5]` succeeds. -/
theorem hpff_error_behavior_witness :
    (high_pass_fourier_filter trivExt (.cube [[[1]]]) (.cube [[[1]]])
        0 1 0 "" 0 0 0 () = .error (.valueError "data must be a 1D or 2D array")) ∧
    (sameShape (Tensor.vec [1, 2]) (Tensor.vec [5]) = false ∧
     ∃ out, high_pass_fourier_filter trivExt (.vec [1, 2]) (.vec [5])
       0 1 0 "" 0 0 0 () = .ok out) :=
  ⟨(hpff_error_behavior).1 trivExt [[[1]]] [[[1]]] 1
      (fun n _ _ => List.length_replicate n 1)
      (by intro p hp r hr; fin_cases hp; fin_cases hr; rfl)
      (by intro p hp r hr; fin_cases hp; fin_cases hr; rfl)
      rfl
      (by intro p hp; fin_cases hp; exact ⟨rfl, by intro q hq; fin_cases hq; rfl⟩)
      rfl 0 1 0 "" 0 0 0 (),
   (hpff_error_behavior).2 trivExt (fun _ => rfl) (fun _ => rfl)
      (fun _ _ _ _ _ _ => rfl) (fun n _ _ => List.length_replicate n 1)
      [1, 2] 5 (by norm_num) 0 1 0 "" 0 0 0 ()⟩

/-- Claim C2, the code evaluated at a failing input: with two rows of ones
and weights zeroing row 0 entirely (`skip_wgt = 1/10`), row 0 is skipped —
its model row is all zeros and its metadata is the skip marker — but the
returned residual row 0 is the raw data row `[1, 1]`, not the weighted data
row `data·wgts = [0, 0]` that the claim (and the repository's own
`test_skip_wgt`) prescribe. -/
theorem hpff_skip_row_residual_unweighted :
    high_pass_fourier_filter trivExt (.mat [[1, 1], [1, 1]])
        (.mat [[0, 0], [1, 1]]) 0 1 0 "" (1/10) 0 0 () =
      .ok (.mat [[0, 0], [1, 1]], .mat [[1, 1], [0, 0]],
        .rows [.skipped, .cleanInfo ()]) ∧
    List.zipWith (· * ·) [(1 : ℚ), 1] [(0 : ℚ), 0] ≠ [(1 : ℚ), 1] := by
  constructor
  · norm_num [high_pass_fourier_filter, hpffCore, trivExt, tmul, tsub,
      tensorOp, bc0, bcL, zipWithE, mapE, mapLast, lastDim, calc_width,
      pyround, mkArea, cleanRows, List.range_succ, List.replicate,
      List.zipWith, Bind.bind, Except.bind, Except.map]
  · norm_num
